import Mathlib

/-!
Shallow embedding of `src/codex-cli/src/utils/agent/mcp.ts` (an MCP bridge:
a schema generator `getMcpToolDefinitions` plus a call router
`handleMcpFunctionCall` with a per-server connection cache).

Modelling choices, stated once here:

* JSON values are the inductive `Json` below (JS numbers are modelled as
  rationals; the file only ever produces integers and multiples of 1/10).
* `JSON.parse` is a runtime-library capability, modelled as a function
  `parse : String → Option Json` carried by the environment (`none` models a
  thrown `SyntaxError`).  `JSON.stringify` is modelled concretely by
  `Json.stringify` below.
* The async transport (`client.connect`, `client.callTool`) is modelled by
  environment functions returning `Except JsError _`; `.error` models a
  thrown exception / rejected promise.  A thrown JS value is either an
  `Error` instance (carrying its `message`) or any other value (carrying its
  `String(...)` form) — type `JsError`.
* `Date.now()` is sampled at line 83 (`start`) and again inside
  `getDuration`; the environment carries the elapsed difference `elapsedMs`.
* The module-level cache `mcpClients` (line 6) is threaded explicitly; the
  router returns the updated cache plus the list of connection-establishment
  attempts it made against the transport.
* Records (`Record<string, _>`) are insertion-ordered association lists;
  key access is `List.lookup`.  The prototype chain of JS objects is not
  modelled.  First-order JS semantics of the values themselves IS modelled:
  destructuring `null` throws a TypeError (line 69 on payload `null`), and
  property access on `null` throws (line 92 on a `null` response, line 93 on
  a `null` content element).  TypeError message texts follow V8, with quote
  characters elided.
-/

/-- JSON values (the result type of `JSON.parse` and the argument type of
`JSON.stringify`).  Objects are insertion-ordered field lists. -/
inductive Json where
  | null : Json
  | bool (b : Bool) : Json
  | num (q : ℚ) : Json
  | str (s : String) : Json
  | arr (elems : List Json) : Json
  | obj (fields : List (String × Json)) : Json
deriving Repr

/-- A thrown JS value: an `Error` instance carrying its `message`, or any
other value carrying its `String(...)` coercion (cf. line 97). -/
inductive JsError where
  | error (message : String) : JsError
  | other (stringForm : String) : JsError
deriving Repr, DecidableEq

/-- Line 97: `err instanceof Error ? err.message : String(err)`. -/
def jsErrMessage : JsError → String
  | .error m => m
  | .other s => s

/-- JS property access `v[k]` for our value model: a field of an object,
`undefined` (`none`) otherwise.  (Access on `null` throws and is handled at
the use sites.) -/
def jsonGetField : Json → String → Option Json
  | .obj fields, k => List.lookup k fields
  | _, _ => none

/-- One digit as a string (used by the decimal printer). -/
def digitStr (n : ℕ) : String := toString n

/-- Fractional digits of a rational in `[0,1)`, most significant first,
with the given fuel.  Terminating decimals (the only numbers this program
produces: integers and tenths) are printed exactly. -/
def fracDigits : ℕ → ℚ → String
  | 0, _ => ""
  | fuel + 1, f =>
    if f = 0 then ""
    else
      let f10 := f * 10
      let d := (Int.floor f10).toNat
      digitStr d ++ fracDigits fuel (f10 - d)

/-- JS number printing (`String(n)` / `JSON.stringify(n)`) for the decimal
fractions this model produces: no decimal point for integers, else the
decimal expansion (exact for terminating decimals within the fuel). -/
def jsNumToString (q : ℚ) : String :=
  let sign := if q < 0 then "-" else ""
  let a : ℚ := |q|
  let ip : ℕ := (Int.floor a).toNat
  let fs := fracDigits 30 (a - ip)
  sign ++ toString ip ++ (if fs = "" then "" else "." ++ fs)

/-- Hex digit (lowercase, as V8 prints `\u00XX` escapes). -/
def hexDigit (n : ℕ) : String :=
  if n < 10 then toString n
  else if n = 10 then "a" else if n = 11 then "b" else if n = 12 then "c"
  else if n = 13 then "d" else if n = 14 then "e" else "f"

/-- JSON string escaping of one character, as `JSON.stringify` performs. -/
def escChar (c : Char) : String :=
  if c = '"' then "\\\""
  else if c = '\\' then "\\\\"
  else if c = '\n' then "\\n"
  else if c = '\r' then "\\r"
  else if c = '\t' then "\\t"
  else if c = '\x08' then "\\b"
  else if c = '\x0c' then "\\f"
  else if c.toNat < 32 then "\\u00" ++ hexDigit (c.toNat / 16) ++ hexDigit (c.toNat % 16)
  else String.singleton c

/-- `JSON.stringify` on a string: double quotes around the escaped body. -/
def quoteJson (s : String) : String :=
  "\"" ++ String.join (s.data.map escChar) ++ "\""

mutual

/-- `JSON.stringify` (lines 55 and 94), modelled for our value type. -/
def Json.stringify : Json → String
  | .null => "null"
  | .bool b => cond b "true" "false"
  | .num q => jsNumToString q
  | .str s => quoteJson s
  | .arr elems => "[" ++ String.intercalate "," (stringifyList elems) ++ "]"
  | .obj fields => "\x7b" ++ String.intercalate "," (stringifyFields fields) ++ "\x7d"

def stringifyList : List Json → List String
  | [] => []
  | x :: xs => Json.stringify x :: stringifyList xs

def stringifyFields : List (String × Json) → List String
  | [] => []
  | (k, v) :: fs => (quoteJson k ++ ":" ++ Json.stringify v) :: stringifyFields fs

end

mutual

/-- The string `Array.prototype.join` uses for one element (line 93's
`.join("\n")`): `null`/`undefined` become empty, strings pass through,
numbers and booleans are coerced, arrays join recursively with commas,
plain objects print as `[object Object]`. -/
def jsJoinElem : Json → String
  | .null => ""
  | .bool b => cond b "true" "false"
  | .num q => jsNumToString q
  | .str s => s
  | .arr elems => String.intercalate "," (jsJoinList elems)
  | .obj _ => "[object Object]"

def jsJoinList : List Json → List String
  | [] => []
  | x :: xs => jsJoinElem x :: jsJoinList xs

end

/-- Join coercion for a possibly-`undefined` value (`c.text` may be absent:
`undefined` joins as the empty string). -/
def jsJoinElemOpt : Option Json → String
  | none => ""
  | some j => jsJoinElem j

/-- A registry entry: the connection descriptor `{url: string}` (line 12). -/
structure ServerCfg where
  url : String
deriving Repr, DecidableEq

/-- The server registry `Record<string, {url: string}>`, insertion ordered. -/
abbrev Registry := List (String × ServerCfg)

/-- An MCP client handle (line 75): created with the process identity
metadata and, once connected, bound to its transport URL. -/
structure Client where
  name : String
  version : String
  transportUrl : String
deriving Repr, DecidableEq

/-- The module-level connection cache `mcpClients` (line 6), threaded
explicitly through the router. -/
abbrev Cache := List (String × Client)

/-- `ResponseInputItem.FunctionCallOutput` as this module builds it
(lines 44-56): a fixed `type` tag, the call id, and an output string. -/
structure FunctionCallOutput where
  type : String
  call_id : String
  output : String
deriving Repr, DecidableEq

/-- The environment: runtime-library and transport capabilities plus the
process identity constants (`ORIGIN`, `CLI_VERSION` from `../session.js`)
and the elapsed wall-clock milliseconds between the two `Date.now()`
samples (lines 83 and 85). -/
structure Env where
  parse : String → Option Json
  connect : Client → Except JsError Unit
  callTool : Client → String → Json → Except JsError Json
  origin : String
  cliVersion : String
  elapsedMs : ℤ

/-- What one router invocation yields: the returned value (or the
propagated exception), the cache afterwards, and the list of server names
for which a connection establishment was attempted against the transport. -/
structure DispatchResult where
  result : Except JsError (List FunctionCallOutput)
  cache : Cache
  connects : List String

/-- Lines 44-46: `formatRaw` — the raw-passthrough one-element sequence. -/
def formatRaw (callId raw : String) : List FunctionCallOutput :=
  [⟨"function_call_output", callId, raw⟩]

/-- The object `{output, metadata: {exit_code, duration_seconds}}` that
line 55 stringifies. -/
def outputPayload (output : String) (exit_code duration_seconds : ℚ) : Json :=
  .obj [("output", .str output),
        ("metadata", .obj [("exit_code", .num exit_code),
                           ("duration_seconds", .num duration_seconds)])]

/-- Lines 48-56: `formatOutput` — a record whose `output` is the JSON
serialization of `{output, metadata: {exit_code, duration_seconds}}`. -/
def formatOutput (callId output : String) (exit_code duration_seconds : ℚ) :
    FunctionCallOutput :=
  ⟨"function_call_output", callId, Json.stringify (outputPayload output exit_code duration_seconds)⟩

/-- JS `Math.round`: round half toward positive infinity. -/
def jsRound (q : ℚ) : ℤ := Int.floor (q + 1 / 2)

/-- Line 85: `Math.round((Date.now() - start) / 100) / 10`. -/
def getDuration (elapsedMs : ℤ) : ℚ := (jsRound ((elapsedMs : ℚ) / 100) : ℚ) / 10

/-- The rest object of line 69's spread: all fields except `name`/`args`,
in order. -/
def restFields (fields : List (String × Json)) : List (String × Json) :=
  fields.filter (fun p => p.1 != "name" && p.1 != "args")

/-- Line 69: `const {name: toolName, args, ...other} = parsed`.  Field
values are `none` when absent (`undefined`).  Destructuring `null` throws a
TypeError; destructuring another primitive yields no `name`/`args` fields
(the rest object of a primitive is irrelevant: it is only consumed after
line 70 establishes `name` was a string, which forces an object payload). -/
def destructure (parsed : Json) : Except JsError (Option Json × Option Json × Json) :=
  match parsed with
  | .null => .error (.error "Cannot destructure property name of parsed as it is null.")
  | .obj fields => .ok (List.lookup "name" fields, List.lookup "args" fields, .obj (restFields fields))
  | _ => .ok (none, none, .obj [])

/-- Line 72: `const callArgs = args ?? other` — nullish coalescing, so a
`null` (or absent) `args` falls back to the rest object. -/
def callArgsOf (argsF : Option Json) (other : Json) : Json :=
  match argsF with
  | none => other
  | some .null => other
  | some a => a

/-- Lines 74-81: resolve the connection for `serverName` — reuse the cached
client, else create one with the process identity metadata, connect it to
the registry URL, and cache it.  Returns the client (or the propagated
connect failure), the cache afterwards, and the establishment attempts. -/
def resolveClient (env : Env) (cfg : ServerCfg) (cache : Cache) (serverName : String) :
    Except JsError Client × Cache × List String :=
  match List.lookup serverName cache with
  | some client => (.ok client, cache, [])
  | none =>
    let client : Client := ⟨env.origin, env.cliVersion, cfg.url⟩
    match env.connect client with
    | .error e => (.error e, cache, [serverName])
    | .ok _ => (.ok client, cache ++ [(serverName, client)], [serverName])

/-- `content.map(c => c.text)` (line 93): property access on a `null`
element throws a TypeError (caught by line 96); otherwise each element
contributes its `text` field (possibly `undefined`). -/
def mapTexts : List Json → Except JsError (List (Option Json))
  | [] => .ok []
  | Json.null :: _ => .error (.error "Cannot read properties of null (reading text)")
  | c :: cs =>
    match mapTexts cs with
    | .error e => .error e
    | .ok ts => .ok (jsonGetField c "text" :: ts)

/-- Lines 92-94: the `outputText` computation.  Accessing `.content` on a
`null` response throws a TypeError (caught by line 96); a list-like
`content` joins the elements' `text` attributes with newlines; anything
else serializes the whole response. -/
def outputTextOf (response : Json) : Except JsError String :=
  match response with
  | .null => .error (.error "Cannot read properties of null (reading content)")
  | r =>
    match jsonGetField r "content" with
    | some (Json.arr items) =>
      match mapTexts items with
      | .error e => .error e
      | .ok ts => .ok (String.intercalate "\n" (ts.map jsJoinElemOpt))
    | _ => .ok (Json.stringify r)

/-- Lines 83-99: time the remote tool call and format its outcome.  Success
yields an `exit_code = 0` record with the extracted text; a rejection — or
the TypeError thrown while extracting text from a `null` response or `null`
content element, caught by the same `catch` — yields an `exit_code = 1`
record with the message prefixed by `MCP error: `. -/
def toolCallResult (env : Env) (client : Client) (toolName : String)
    (callArgs : Json) (callId : String) : List FunctionCallOutput :=
  match env.callTool client toolName callArgs with
  | .ok response =>
    match outputTextOf response with
    | .ok t => [formatOutput callId t 0 (getDuration env.elapsedMs)]
    | .error e => [formatOutput callId ("MCP error: " ++ jsErrMessage e) 1 (getDuration env.elapsedMs)]
  | .error e => [formatOutput callId ("MCP error: " ++ jsErrMessage e) 1 (getDuration env.elapsedMs)]

/-- Lines 36-100: `handleMcpFunctionCall`. -/
def handleMcpFunctionCall (env : Env) (servers : Registry) (cache : Cache)
    (serverName : String) (rawArguments : Option String) (callId : String) :
    DispatchResult :=
  let paramsRaw := rawArguments.getD "\x7b\x7d"
  match List.lookup serverName servers with
  | none => ⟨.ok (formatRaw callId paramsRaw), cache, []⟩
  | some cfg =>
    match env.parse paramsRaw with
    | none => ⟨.ok (formatRaw callId paramsRaw), cache, []⟩
    | some parsed =>
      match destructure parsed with
      | .error e => ⟨.error e, cache, []⟩
      | .ok (nameF, argsF, other) =>
        match nameF with
        | some (.str toolName) =>
          let callArgs := callArgsOf argsF other
          match resolveClient env cfg cache serverName with
          | (.error e, cache', connects) => ⟨.error e, cache', connects⟩
          | (.ok client, cache', connects) =>
            ⟨.ok (toolCallResult env client toolName callArgs callId), cache', connects⟩
        | _ => ⟨.ok (formatRaw callId paramsRaw), cache, []⟩

/-- The fixed parameter schema of each descriptor (lines 20-28). -/
def mcpParamSchema : Json :=
  .obj [("type", .str "object"),
        ("properties", .obj [("name", .obj [("type", .str "string"), ("description", .str "Tool name")]),
                             ("args", .obj [("type", .str "object"), ("description", .str "Tool args")])]),
        ("required", .arr [.str "name", .str "args"]),
        ("additionalProperties", .bool false)]

/-- One OpenAI function descriptor as lines 15-29 build it. -/
structure ToolDefinition where
  type : String
  name : String
  description : String
  strict : Bool
  parameters : Json
deriving Repr

/-- The descriptor built for one registry entry (lines 15-29): only the
entry's key (`serverName`) is consulted, never the `{url}` descriptor. -/
def mkServerToolDef (serverName : String) : ToolDefinition :=
  ⟨"function", serverName,
   "Call remote MCP server " ++ serverName ++ " tool",
   false, mcpParamSchema⟩

/-- Lines 11-30: `getMcpToolDefinitions`. -/
def getMcpToolDefinitions (servers : Option Registry) : List ToolDefinition :=
  match servers with
  | none => []
  | some servers => servers.map (fun entry => mkServerToolDef entry.1)

/-! ## Shared concrete instances (used in witnesses and counterexamples) -/

def url0 : String := "http://localhost:3000/sse"

def servers0 : Registry := [("srv", ⟨url0⟩)]

def echoFields : List (String × Json) := [("name", .str "echo"), ("args", .obj [("x", .num 1)])]

def rawEcho : String := "\x7b\"name\":\"echo\",\"args\":\x7b\"x\":1\x7d\x7d"

def flatFields : List (String × Json) := [("name", .str "t"), ("foo", .str "bar")]

def rawFlat : String := "\x7b\"name\":\"t\",\"foo\":\"bar\"\x7d"

def argsNullFields : List (String × Json) :=
  [("name", .str "t"), ("args", Json.null), ("foo", .str "bar")]

def rawArgsNull : String := "\x7b\"name\":\"t\",\"args\":null,\"foo\":\"bar\"\x7d"

/-- A concrete `JSON.parse` oracle instance.  It agrees with real
`JSON.parse` on every string it is applied to in this file — in particular
`JSON.parse("null")` evaluates to `null`. -/
def parse0 : String → Option Json := fun s =>
  if s = rawEcho then some (.obj echoFields)
  else if s = rawFlat then some (.obj flatFields)
  else if s = rawArgsNull then some (.obj argsNullFields)
  else if s = "null" then some Json.null
  else none

/-- A transport response `{content: [{text: "hi"}]}`. -/
def respHi : Json := .obj [("content", .arr [.obj [("text", .str "hi")]])]

def envOk : Env :=
  { parse := parse0, connect := fun _ => .ok (),
    callTool := fun _ _ _ => .ok respHi,
    origin := "codex", cliVersion := "1.0", elapsedMs := 123 }

def envBoom : Env := { envOk with callTool := fun _ _ _ => .error (.error "boom") }

def envNullResp : Env := { envOk with callTool := fun _ _ _ => .ok Json.null }

def envEchoArgs : Env :=
  { envOk with callTool := fun _ _ args => .error (.other (Json.stringify args)) }

def envConnFail : Env := { envOk with connect := fun _ => .error (.error "connection refused") }

/-- The client the router builds for `servers0`'s entry under `envOk`. -/
def client0 : Client := ⟨"codex", "1.0", url0⟩

/-! ## Helper lemmas -/

theorem getMcpToolDefinitions_some_eq (servers : Registry) :
    getMcpToolDefinitions (some servers) = (servers.map Prod.fst).map mkServerToolDef := by
  rw [getMcpToolDefinitions, List.map_map]
  rfl

/-- Every record produced by the tool-call phase is a single
`formatOutput` record stamped with `getDuration env.elapsedMs`. -/
theorem toolCallResult_spec (env : Env) (client : Client) (toolName : String)
    (callArgs : Json) (callId : String) :
    ∃ out ec, toolCallResult env client toolName callArgs callId =
      [formatOutput callId out ec (getDuration env.elapsedMs)] := by
  cases h : env.callTool client toolName callArgs with
  | error e =>
    exact ⟨"MCP error: " ++ jsErrMessage e, 1, by simp [toolCallResult, h]⟩
  | ok response =>
    cases h2 : outputTextOf response with
    | error e =>
      exact ⟨"MCP error: " ++ jsErrMessage e, 1, by simp [toolCallResult, h, h2]⟩
    | ok t => exact ⟨t, 0, by simp [toolCallResult, h, h2]⟩

/-! ## C6 -/

/-- C6: `getMcpToolDefinitions` on an absent registry returns the empty
sequence; on any registry it returns one descriptor per registered server in
registry iteration order, each with `type = "function"`, `name` the registry
key verbatim, `strict = false`, and the fixed parameter schema requiring
exactly the string field `name` and object field `args`, with
`additionalProperties = false`. -/
theorem C6_tool_definitions_shape :
    getMcpToolDefinitions none = [] ∧
    ∀ servers : Registry,
      (getMcpToolDefinitions (some servers)).map ToolDefinition.name = servers.map Prod.fst ∧
      ∀ d ∈ getMcpToolDefinitions (some servers),
        d.type = "function" ∧ d.strict = false ∧ d.parameters = mcpParamSchema ∧
        jsonGetField d.parameters "required" = some (.arr [.str "name", .str "args"]) ∧
        jsonGetField d.parameters "additionalProperties" = some (.bool false) ∧
        jsonGetField d.parameters "properties" =
          some (.obj [("name", .obj [("type", .str "string"), ("description", .str "Tool name")]),
                      ("args", .obj [("type", .str "object"), ("description", .str "Tool args")])]) := by
  refine ⟨rfl, fun servers => ⟨?_, ?_⟩⟩
  · rw [getMcpToolDefinitions_some_eq, List.map_map,
      show ToolDefinition.name ∘ mkServerToolDef = id from rfl, List.map_id]
  · intro d hd
    rw [getMcpToolDefinitions_some_eq] at hd
    obtain ⟨n, _, rfl⟩ := List.mem_map.mp hd
    exact ⟨rfl, rfl, rfl, rfl, rfl, rfl⟩

/-- Witness for C6 at the spec's own example registry `{a: _, b: _}`. -/
theorem C6_tool_definitions_shape_witness :
    (getMcpToolDefinitions (some [("a", ⟨"u1"⟩), ("b", ⟨"u2"⟩)])).map ToolDefinition.name = ["a", "b"] ∧
    (mkServerToolDef "a").type = "function" ∧ (mkServerToolDef "a").strict = false ∧
    (mkServerToolDef "a").parameters = mcpParamSchema := by
  have h := C6_tool_definitions_shape.2 [("a", ⟨"u1"⟩), ("b", ⟨"u2"⟩)]
  have hm := h.2 (mkServerToolDef "a") (List.mem_cons_self _ _)
  exact ⟨h.1, hm.1, hm.2.1, hm.2.2.1⟩

/-! ## C10 -/

/-- C10: the descriptor sequence depends only on the registry's keys and
their order; the `url` descriptors never influence it. -/
theorem C10_defs_depend_only_on_keys (s1 s2 : Registry)
    (h : s1.map Prod.fst = s2.map Prod.fst) :
    getMcpToolDefinitions (some s1) = getMcpToolDefinitions (some s2) := by
  rw [getMcpToolDefinitions_some_eq, getMcpToolDefinitions_some_eq, h]

/-- Witness for C10: same key, arbitrarily different urls. -/
theorem C10_defs_depend_only_on_keys_witness :
    getMcpToolDefinitions (some [("a", ⟨"http://one"⟩)]) =
      getMcpToolDefinitions (some [("a", ⟨"http://two"⟩)]) :=
  C10_defs_depend_only_on_keys [("a", ⟨"http://one"⟩)] [("a", ⟨"http://two"⟩)] rfl

/-! ## C9 -/

/-- C9: in both the success and the remote-failure records the embedded
`duration_seconds` is `getDuration elapsedMs`, which equals the elapsed
milliseconds divided by 100, rounded (half up, as `Math.round`) to the
nearest integer, then divided by 10 — i.e. the elapsed seconds rounded to
one decimal place at 100ms resolution (within 1/20 s of the exact value). -/
theorem C9_duration_formula :
    (∀ ms : ℤ, getDuration ms = (jsRound ((ms : ℚ) / 100) : ℚ) / 10) ∧
    (∀ ms : ℤ, |getDuration ms - (ms : ℚ) / 1000| ≤ 1 / 20) ∧
    (∀ (env : Env) (client : Client) (toolName : String) (callArgs : Json) (callId : String),
      ∃ out ec, toolCallResult env client toolName callArgs callId =
        [formatOutput callId out ec (getDuration env.elapsedMs)]) := by
  refine ⟨fun ms => rfl, fun ms => ?_, toolCallResult_spec⟩
  unfold getDuration jsRound
  have h1 : (↑⌊(ms : ℚ) / 100 + 1 / 2⌋ : ℚ) ≤ (ms : ℚ) / 100 + 1 / 2 := Int.floor_le _
  have h2 : (ms : ℚ) / 100 + 1 / 2 < ↑⌊(ms : ℚ) / 100 + 1 / 2⌋ + 1 := Int.lt_floor_add_one _
  rw [abs_le]
  constructor <;> linarith

/-! ## Routing helpers -/

theorem resolveClient_cached (env : Env) (cfg : ServerCfg) (cache : Cache)
    (serverName : String) (client : Client)
    (hc : List.lookup serverName cache = some client) :
    resolveClient env cfg cache serverName = (.ok client, cache, []) := by
  simp [resolveClient, hc]

theorem resolveClient_uncached_ok (env : Env) (cfg : ServerCfg) (cache : Cache)
    (serverName : String)
    (hc : List.lookup serverName cache = none)
    (hk : env.connect ⟨env.origin, env.cliVersion, cfg.url⟩ = .ok ()) :
    resolveClient env cfg cache serverName =
      (.ok ⟨env.origin, env.cliVersion, cfg.url⟩,
       cache ++ [(serverName, ⟨env.origin, env.cliVersion, cfg.url⟩)], [serverName]) := by
  simp [resolveClient, hc, hk]

theorem resolveClient_uncached_err (env : Env) (cfg : ServerCfg) (cache : Cache)
    (serverName : String) (e : JsError)
    (hc : List.lookup serverName cache = none)
    (hk : env.connect ⟨env.origin, env.cliVersion, cfg.url⟩ = .error e) :
    resolveClient env cfg cache serverName = (.error e, cache, [serverName]) := by
  simp [resolveClient, hc, hk]

/-- A routed call (known server, parsed object payload, string tool name)
whose client resolution succeeds runs the tool-call phase on the resolved
client with `callArgsOf` of the payload's `args`/rest fields. -/
theorem handle_routed_resolved (env : Env) (servers : Registry) (cache : Cache)
    (serverName raw callId : String) (cfg : ServerCfg) (fields : List (String × Json))
    (toolName : String) (client : Client) (cache2 : Cache) (connects : List String)
    (hs : List.lookup serverName servers = some cfg)
    (hp : env.parse raw = some (.obj fields))
    (hn : List.lookup "name" fields = some (.str toolName))
    (hre : resolveClient env cfg cache serverName = (.ok client, cache2, connects)) :
    handleMcpFunctionCall env servers cache serverName (some raw) callId =
      ⟨.ok (toolCallResult env client toolName
          (callArgsOf (List.lookup "args" fields) (.obj (restFields fields))) callId),
       cache2, connects⟩ := by
  simp only [handleMcpFunctionCall, Option.getD_some, hs, hp, destructure, hn, hre]

/-- A routed call whose connection establishment fails propagates the
failure and leaves the cache as `resolveClient` left it. -/
theorem handle_routed_error (env : Env) (servers : Registry) (cache : Cache)
    (serverName raw callId : String) (cfg : ServerCfg) (fields : List (String × Json))
    (toolName : String) (e : JsError) (cache2 : Cache) (connects : List String)
    (hs : List.lookup serverName servers = some cfg)
    (hp : env.parse raw = some (.obj fields))
    (hn : List.lookup "name" fields = some (.str toolName))
    (hre : resolveClient env cfg cache serverName = (.error e, cache2, connects)) :
    handleMcpFunctionCall env servers cache serverName (some raw) callId =
      ⟨.error e, cache2, connects⟩ := by
  simp only [handleMcpFunctionCall, Option.getD_some, hs, hp, destructure, hn, hre]

/-! ## C2 -/

/-- C2: for a known server with a well-formed payload whose client
resolution succeeded, a rejected remote `callTool` is not propagated: the
result is one record embedding `{output, metadata}` with `exit_code = 1`
and output `"MCP error: "` followed by the error's message (an `Error`'s
`message`, the string form otherwise). -/
theorem C2_remote_failure_wrapped (env : Env) (servers : Registry) (cache : Cache)
    (serverName raw callId : String) (cfg : ServerCfg) (fields : List (String × Json))
    (toolName : String) (client : Client) (cache2 : Cache) (connects : List String) (e : JsError)
    (hs : List.lookup serverName servers = some cfg)
    (hp : env.parse raw = some (.obj fields))
    (hn : List.lookup "name" fields = some (.str toolName))
    (hre : resolveClient env cfg cache serverName = (.ok client, cache2, connects))
    (he : env.callTool client toolName
      (callArgsOf (List.lookup "args" fields) (.obj (restFields fields))) = .error e) :
    (handleMcpFunctionCall env servers cache serverName (some raw) callId).result =
      .ok [formatOutput callId ("MCP error: " ++ jsErrMessage e) 1 (getDuration env.elapsedMs)] ∧
    (∀ m, jsErrMessage (JsError.error m) = m) ∧
    (∀ s, jsErrMessage (JsError.other s) = s) := by
  rw [handle_routed_resolved env servers cache serverName raw callId cfg fields toolName
    client cache2 connects hs hp hn hre]
  exact ⟨by simp [toolCallResult, he], fun m => rfl, fun s => rfl⟩

/-- Witness for C2: the spec's `boom` scenario. -/
theorem C2_remote_failure_wrapped_witness :
    (handleMcpFunctionCall envBoom servers0 [] "srv" (some rawEcho) "c1").result =
      .ok [formatOutput "c1" "MCP error: boom" 1 (getDuration 123)] := by
  have h := C2_remote_failure_wrapped envBoom servers0 [] "srv" rawEcho "c1" ⟨url0⟩
    echoFields "echo" client0 [("srv", client0)] ["srv"] (.error "boom")
    rfl rfl rfl rfl rfl
  exact h.1

/-! ## C8 -/

/-- C8: a connection-establishment failure for a known server is not
caught: the rejection propagates to the caller and no cache entry is stored
for that server name. -/
theorem C8_connect_failure_propagates (env : Env) (servers : Registry) (cache : Cache)
    (serverName raw callId : String) (cfg : ServerCfg) (fields : List (String × Json))
    (toolName : String) (e : JsError)
    (hs : List.lookup serverName servers = some cfg)
    (hp : env.parse raw = some (.obj fields))
    (hn : List.lookup "name" fields = some (.str toolName))
    (hc : List.lookup serverName cache = none)
    (hk : env.connect ⟨env.origin, env.cliVersion, cfg.url⟩ = .error e) :
    (handleMcpFunctionCall env servers cache serverName (some raw) callId).result = .error e ∧
    (handleMcpFunctionCall env servers cache serverName (some raw) callId).cache = cache ∧
    List.lookup serverName (handleMcpFunctionCall env servers cache serverName (some raw) callId).cache = none := by
  rw [handle_routed_error env servers cache serverName raw callId cfg fields toolName
    e cache [serverName] hs hp hn (resolveClient_uncached_err env cfg cache serverName e hc hk)]
  exact ⟨rfl, rfl, hc⟩

/-- Witness for C8: a transport whose connect rejects. -/
theorem C8_connect_failure_propagates_witness :
    (handleMcpFunctionCall envConnFail servers0 [] "srv" (some rawEcho) "c1").result =
      .error (.error "connection refused") ∧
    (handleMcpFunctionCall envConnFail servers0 [] "srv" (some rawEcho) "c1").cache = [] := by
  have h := C8_connect_failure_propagates envConnFail servers0 [] "srv" rawEcho "c1" ⟨url0⟩
    echoFields "echo" (.error "connection refused") rfl rfl rfl rfl rfl
  exact ⟨h.1, h.2.1⟩

/-! ## C4 -/

/-- C4: every value the router returns (as opposed to an exception it
propagates) is a sequence of exactly one `function_call_output` record
carrying the given call id — on the raw-passthrough paths and on the
success / remote-error paths alike. -/
theorem C4_exactly_one_output (env : Env) (servers : Registry) (cache : Cache)
    (serverName : String) (rawArguments : Option String) (callId : String)
    (outs : List FunctionCallOutput)
    (h : (handleMcpFunctionCall env servers cache serverName rawArguments callId).result = .ok outs) :
    outs.length = 1 ∧ ∀ o ∈ outs, o.type = "function_call_output" ∧ o.call_id = callId := by
  have hraw : ∀ x : String, outs = formatRaw callId x →
      outs.length = 1 ∧ ∀ o ∈ outs, o.type = "function_call_output" ∧ o.call_id = callId := by
    rintro x rfl
    exact ⟨rfl, by rintro o ho; simp only [formatRaw, List.mem_singleton] at ho; subst ho; exact ⟨rfl, rfl⟩⟩
  cases hs : List.lookup serverName servers with
  | none =>
    simp [handleMcpFunctionCall, hs] at h
    exact hraw _ h.symm
  | some cfg =>
    cases hp : env.parse (rawArguments.getD "\x7b\x7d") with
    | none =>
      simp [handleMcpFunctionCall, hs, hp] at h
      exact hraw _ h.symm
    | some parsed =>
      cases hd : destructure parsed with
      | error e => simp [handleMcpFunctionCall, hs, hp, hd] at h
      | ok trip =>
        obtain ⟨nameF, argsF, other⟩ := trip
        have main : ∀ toolName, nameF = some (Json.str toolName) →
            outs.length = 1 ∧ ∀ o ∈ outs, o.type = "function_call_output" ∧ o.call_id = callId := by
          intro toolName hnf
          subst hnf
          rcases hre : resolveClient env cfg cache serverName with ⟨cr, c2, cn⟩
          cases cr with
          | error e => simp [handleMcpFunctionCall, hs, hp, hd, hre] at h
          | ok client =>
            simp [handleMcpFunctionCall, hs, hp, hd, hre] at h
            obtain ⟨out, ec, hr⟩ := toolCallResult_spec env client toolName (callArgsOf argsF other) callId
            rw [hr] at h
            subst h
            exact ⟨rfl, by rintro o ho; simp only [List.mem_singleton] at ho; subst ho; exact ⟨rfl, rfl⟩⟩
        cases nameF with
        | none =>
          simp [handleMcpFunctionCall, hs, hp, hd] at h
          exact hraw _ h.symm
        | some j =>
          cases j with
          | str toolName => exact main toolName rfl
          | null =>
            simp [handleMcpFunctionCall, hs, hp, hd] at h
            exact hraw _ h.symm
          | bool b =>
            simp [handleMcpFunctionCall, hs, hp, hd] at h
            exact hraw _ h.symm
          | num q =>
            simp [handleMcpFunctionCall, hs, hp, hd] at h
            exact hraw _ h.symm
          | arr elems =>
            simp [handleMcpFunctionCall, hs, hp, hd] at h
            exact hraw _ h.symm
          | obj fields =>
            simp [handleMcpFunctionCall, hs, hp, hd] at h
            exact hraw _ h.symm

/-- Witness for C4 at a successful dispatch. -/
theorem C4_exactly_one_output_witness :
    ([formatOutput "c1" "hi" 0 (getDuration 123)] : List FunctionCallOutput).length = 1 ∧
    (formatOutput "c1" "hi" 0 (getDuration 123)).type = "function_call_output" ∧
    (formatOutput "c1" "hi" 0 (getDuration 123)).call_id = "c1" := by
  have h := C4_exactly_one_output envOk servers0 [] "srv" (some rawEcho) "c1"
    [formatOutput "c1" "hi" 0 (getDuration 123)] rfl
  exact ⟨h.1, (h.2 _ (List.mem_singleton.mpr rfl)).1, (h.2 _ (List.mem_singleton.mpr rfl)).2⟩

/-! ## C1 -/

/-- C1 counterexample: with server `srv` registered and `JSON.parse`
behaving as the real one does on the string `"null"` (it returns JSON
`null`), the payload has no `name` field — so its `name` field is not a
string — yet the router does NOT return the raw-passthrough record: line
69's destructuring of `null` throws a TypeError that escapes the function. -/
theorem C1_unroutable_counterexample :
    envOk.parse "null" = some Json.null ∧
    jsonGetField Json.null "name" = none ∧
    (handleMcpFunctionCall envOk servers0 [] "srv" (some "null") "c1").result =
      .error (.error "Cannot destructure property name of parsed as it is null.") ∧
    (handleMcpFunctionCall envOk servers0 [] "srv" (some "null") "c1").result ≠
      .ok (formatRaw "c1" "null") := by
  refine ⟨rfl, rfl, rfl, ?_⟩
  rw [show (handleMcpFunctionCall envOk servers0 [] "srv" (some "null") "c1").result =
    Except.error (JsError.error "Cannot destructure property name of parsed as it is null.") from rfl]
  simp

/-- C1 (amended): if the call is unroutable — unknown server name,
unparseable argument string, or a payload that parses to a value other than
JSON `null` whose `name` field is not a string — the router returns, without
throwing, the single raw-passthrough record: type `function_call_output`,
the given call id, and the raw argument string (defaulted to `"{}"` when
absent) verbatim, with no JSON wrapping.  (For a payload that parses to
JSON `null` the router instead throws, per the counterexample.) -/
theorem C1_amended_raw_passthrough (env : Env) (servers : Registry) (cache : Cache)
    (serverName : String) (rawArguments : Option String) (callId : String)
    (h : List.lookup serverName servers = none ∨
         env.parse (rawArguments.getD "\x7b\x7d") = none ∨
         (∃ p, env.parse (rawArguments.getD "\x7b\x7d") = some p ∧ p ≠ Json.null ∧
               ∀ s, jsonGetField p "name" ≠ some (Json.str s))) :
    (handleMcpFunctionCall env servers cache serverName rawArguments callId).result =
      .ok [⟨"function_call_output", callId, rawArguments.getD "\x7b\x7d"⟩] := by
  rcases h with h1 | h2 | ⟨p, hp, hnn, hns⟩
  · simp [handleMcpFunctionCall, h1, formatRaw]
  · cases hs : List.lookup serverName servers with
    | none => simp [handleMcpFunctionCall, hs, formatRaw]
    | some cfg => simp [handleMcpFunctionCall, hs, h2, formatRaw]
  · cases hs : List.lookup serverName servers with
    | none => simp [handleMcpFunctionCall, hs, formatRaw]
    | some cfg =>
      cases p with
      | null => exact absurd rfl hnn
      | bool b => simp [handleMcpFunctionCall, hs, hp, destructure, formatRaw]
      | num q => simp [handleMcpFunctionCall, hs, hp, destructure, formatRaw]
      | str s => simp [handleMcpFunctionCall, hs, hp, destructure, formatRaw]
      | arr elems => simp [handleMcpFunctionCall, hs, hp, destructure, formatRaw]
      | obj fields =>
        have hn : ∀ s, List.lookup "name" fields ≠ some (Json.str s) := by
          simpa [jsonGetField] using hns
        cases hnf : List.lookup "name" fields with
        | none => simp [handleMcpFunctionCall, hs, hp, destructure, hnf, formatRaw]
        | some j =>
          cases j with
          | str s => exact absurd hnf (hn s)
          | null => simp [handleMcpFunctionCall, hs, hp, destructure, hnf, formatRaw]
          | bool b => simp [handleMcpFunctionCall, hs, hp, destructure, hnf, formatRaw]
          | num q => simp [handleMcpFunctionCall, hs, hp, destructure, hnf, formatRaw]
          | arr elems => simp [handleMcpFunctionCall, hs, hp, destructure, hnf, formatRaw]
          | obj fs => simp [handleMcpFunctionCall, hs, hp, destructure, hnf, formatRaw]

/-- Witness for amended C1: an unknown server name passes the raw string
through untouched. -/
theorem C1_amended_raw_passthrough_witness :
    (handleMcpFunctionCall envOk [] [] "nope" (some "not json") "c9").result =
      .ok [⟨"function_call_output", "c9", "not json"⟩] :=
  C1_amended_raw_passthrough envOk [] [] "nope" (some "not json") "c9" (Or.inl rfl)

/-! ## Cache lemmas -/

theorem lookup_append_of_ne (cache : Cache) (n s : String) (cl : Client) (h : n ≠ s) :
    List.lookup n (cache ++ [(s, cl)]) = List.lookup n cache := by
  induction cache with
  | nil =>
    have hb : (n == s) = false := beq_eq_false_iff_ne.mpr h
    simp [List.lookup, hb]
  | cons p tl ih =>
    obtain ⟨k, v⟩ := p
    cases hnk : (n == k) with
    | true => simp [List.lookup, hnk]
    | false => simpa [List.lookup, hnk] using ih

theorem lookup_append_self (cache : Cache) (s : String) (cl : Client)
    (h : List.lookup s cache = none) :
    List.lookup s (cache ++ [(s, cl)]) = some cl := by
  induction cache with
  | nil => simp [List.lookup]
  | cons p tl ih =>
    obtain ⟨k, v⟩ := p
    cases hsk : (s == k) with
    | true => simp [List.lookup, hsk] at h
    | false =>
      simp only [List.lookup, hsk, List.cons_append] at h ⊢
      exact ih h

theorem not_mem_keys_of_lookup_none (cache : Cache) (s : String)
    (h : List.lookup s cache = none) : s ∉ cache.map Prod.fst := by
  induction cache with
  | nil => simp
  | cons p tl ih =>
    obtain ⟨k, v⟩ := p
    cases hsk : (s == k) with
    | true => simp [List.lookup, hsk] at h
    | false =>
      simp only [List.lookup, hsk] at h
      simp only [List.map_cons, List.mem_cons]
      rintro (rfl | hmem)
      · simp at hsk
      · exact ih h hmem

/-- The cache after one router invocation: unchanged, or exactly one entry
appended for the routed server name when it was absent. -/
theorem handle_cache_cases (env : Env) (servers : Registry) (cache : Cache)
    (serverName : String) (rawArguments : Option String) (callId : String) :
    (handleMcpFunctionCall env servers cache serverName rawArguments callId).cache = cache ∨
    (∃ cl, List.lookup serverName cache = none ∧
      (handleMcpFunctionCall env servers cache serverName rawArguments callId).cache =
        cache ++ [(serverName, cl)]) := by
  cases hs : List.lookup serverName servers with
  | none => left; simp [handleMcpFunctionCall, hs]
  | some cfg =>
    cases hp : env.parse (rawArguments.getD "\x7b\x7d") with
    | none => left; simp [handleMcpFunctionCall, hs, hp]
    | some parsed =>
      cases hd : destructure parsed with
      | error e => left; simp [handleMcpFunctionCall, hs, hp, hd]
      | ok trip =>
        obtain ⟨nameF, argsF, other⟩ := trip
        have main : ∀ toolName, nameF = some (Json.str toolName) →
            (handleMcpFunctionCall env servers cache serverName rawArguments callId).cache = cache ∨
            (∃ cl, List.lookup serverName cache = none ∧
              (handleMcpFunctionCall env servers cache serverName rawArguments callId).cache =
                cache ++ [(serverName, cl)]) := by
          intro toolName hnf
          subst hnf
          cases hc : List.lookup serverName cache with
          | some client =>
            left
            simp [handleMcpFunctionCall, hs, hp, hd,
              resolveClient_cached env cfg cache serverName client hc]
          | none =>
            cases hk : env.connect ⟨env.origin, env.cliVersion, cfg.url⟩ with
            | error e =>
              left
              simp [handleMcpFunctionCall, hs, hp, hd,
                resolveClient_uncached_err env cfg cache serverName e hc hk]
            | ok u =>
              cases u
              right
              refine ⟨⟨env.origin, env.cliVersion, cfg.url⟩, rfl, ?_⟩
              simp [handleMcpFunctionCall, hs, hp, hd,
                resolveClient_uncached_ok env cfg cache serverName hc hk]
        cases nameF with
        | none => left; simp [handleMcpFunctionCall, hs, hp, hd]
        | some j =>
          cases j with
          | str toolName => exact main toolName rfl
          | null => left; simp [handleMcpFunctionCall, hs, hp, hd]
          | bool b => left; simp [handleMcpFunctionCall, hs, hp, hd]
          | num q => left; simp [handleMcpFunctionCall, hs, hp, hd]
          | arr elems => left; simp [handleMcpFunctionCall, hs, hp, hd]
          | obj fields => left; simp [handleMcpFunctionCall, hs, hp, hd]

/-! ## C5 -/

/-- C5: the connection cache is insert-if-absent keyed on server name.
Two sequential routed calls for the same known server perform exactly one
connection establishment (the first call's; the second reuses the cached
client and changes nothing); in general an invocation leaves the cache
unchanged or appends exactly one entry for the routed server name when it
was absent, never touches other names' entries, never removes entries, and
preserves at-most-one-entry-per-name. -/
theorem C5_cache_insert_if_absent :
    (∀ (env : Env) (servers : Registry) (cache : Cache)
        (serverName raw id1 id2 : String) (cfg : ServerCfg)
        (fields : List (String × Json)) (toolName : String),
      List.lookup serverName servers = some cfg →
      env.parse raw = some (.obj fields) →
      List.lookup "name" fields = some (.str toolName) →
      List.lookup serverName cache = none →
      env.connect ⟨env.origin, env.cliVersion, cfg.url⟩ = .ok () →
      (handleMcpFunctionCall env servers cache serverName (some raw) id1).connects = [serverName] ∧
      List.lookup serverName
        (handleMcpFunctionCall env servers cache serverName (some raw) id1).cache =
        some ⟨env.origin, env.cliVersion, cfg.url⟩ ∧
      (handleMcpFunctionCall env servers
        (handleMcpFunctionCall env servers cache serverName (some raw) id1).cache
        serverName (some raw) id2).connects = [] ∧
      (handleMcpFunctionCall env servers
        (handleMcpFunctionCall env servers cache serverName (some raw) id1).cache
        serverName (some raw) id2).cache =
        (handleMcpFunctionCall env servers cache serverName (some raw) id1).cache) ∧
    (∀ (env : Env) (servers : Registry) (cache : Cache) (serverName : String)
        (rawArguments : Option String) (callId : String),
      ((handleMcpFunctionCall env servers cache serverName rawArguments callId).cache = cache ∨
       ∃ cl, List.lookup serverName cache = none ∧
         (handleMcpFunctionCall env servers cache serverName rawArguments callId).cache =
           cache ++ [(serverName, cl)]) ∧
      (∀ n, n ≠ serverName →
        List.lookup n (handleMcpFunctionCall env servers cache serverName rawArguments callId).cache =
          List.lookup n cache) ∧
      ((cache.map Prod.fst).Nodup →
        ((handleMcpFunctionCall env servers cache serverName rawArguments callId).cache.map Prod.fst).Nodup)) := by
  constructor
  · intro env servers cache s raw id1 id2 cfg fields toolName hs hp hn hc hk
    have hre := resolveClient_uncached_ok env cfg cache s hc hk
    have h1 := handle_routed_resolved env servers cache s raw id1 cfg fields toolName
      _ _ _ hs hp hn hre
    have hcache1 : (handleMcpFunctionCall env servers cache s (some raw) id1).cache =
        cache ++ [(s, ⟨env.origin, env.cliVersion, cfg.url⟩)] := by rw [h1]
    have hc2 : List.lookup s (cache ++ [(s, ⟨env.origin, env.cliVersion, cfg.url⟩)]) =
        some ⟨env.origin, env.cliVersion, cfg.url⟩ := lookup_append_self cache s _ hc
    have hre2 := resolveClient_cached env cfg
      (cache ++ [(s, ⟨env.origin, env.cliVersion, cfg.url⟩)]) s _ hc2
    have h2 := handle_routed_resolved env servers
      (cache ++ [(s, ⟨env.origin, env.cliVersion, cfg.url⟩)]) s raw id2 cfg fields toolName
      _ _ _ hs hp hn hre2
    refine ⟨by rw [h1], ?_, ?_, ?_⟩
    · rw [hcache1]; exact hc2
    · rw [hcache1, h2]
    · rw [hcache1, h2]
  · intro env servers cache serverName rawArguments callId
    rcases handle_cache_cases env servers cache serverName rawArguments callId with
      hsame | ⟨cl, hnone, happ⟩
    · exact ⟨Or.inl hsame, fun n _ => by rw [hsame],
        fun hd => by rw [hsame]; exact hd⟩
    · refine ⟨Or.inr ⟨cl, hnone, happ⟩,
        fun n hne => by rw [happ]; exact lookup_append_of_ne cache n serverName cl hne,
        fun hd => ?_⟩
      rw [happ, List.map_append]
      refine List.Nodup.append hd (List.nodup_singleton _) ?_
      intro a ha hmem
      rw [List.map_singleton, List.mem_singleton] at hmem
      subst hmem
      exact not_mem_keys_of_lookup_none cache a hnone ha

/-- Witness for C5: two sequential calls under `envOk` establish exactly
one connection. -/
theorem C5_cache_insert_if_absent_witness :
    (handleMcpFunctionCall envOk servers0 [] "srv" (some rawEcho) "c1").connects = ["srv"] ∧
    (handleMcpFunctionCall envOk servers0
      (handleMcpFunctionCall envOk servers0 [] "srv" (some rawEcho) "c1").cache
      "srv" (some rawEcho) "c2").connects = [] ∧
    (handleMcpFunctionCall envOk servers0
      (handleMcpFunctionCall envOk servers0 [] "srv" (some rawEcho) "c1").cache
      "srv" (some rawEcho) "c2").cache =
      (handleMcpFunctionCall envOk servers0 [] "srv" (some rawEcho) "c1").cache := by
  have h := C5_cache_insert_if_absent.1 envOk servers0 [] "srv" rawEcho "c1" "c2" ⟨url0⟩
    echoFields "echo" rfl rfl rfl rfl rfl
  exact ⟨h.1, h.2.2.1, h.2.2.2⟩

/-! ## Output extraction lemmas -/

theorem mapTexts_of_no_null (items : List Json) (h : Json.null ∉ items) :
    mapTexts items = .ok (items.map (fun c => jsonGetField c "text")) := by
  induction items with
  | nil => simp [mapTexts]
  | cons c cs ih =>
    have hc : c ≠ Json.null := fun hcn => h (hcn ▸ List.mem_cons_self _ _)
    have hcs : Json.null ∉ cs := fun hm => h (List.mem_cons_of_mem _ hm)
    cases c with
    | null => exact absurd rfl hc
    | bool b => simp [mapTexts, ih hcs]
    | num q => simp [mapTexts, ih hcs]
    | str s => simp [mapTexts, ih hcs]
    | arr elems => simp [mapTexts, ih hcs]
    | obj fields => simp [mapTexts, ih hcs]

theorem outputTextOf_content_arr (response : Json) (items : List Json)
    (hresp : response ≠ Json.null)
    (hcf : jsonGetField response "content" = some (.arr items))
    (hno : Json.null ∉ items) :
    outputTextOf response =
      .ok (String.intercalate "\n" (items.map (fun c => jsJoinElemOpt (jsonGetField c "text")))) := by
  cases response with
  | null => exact absurd rfl hresp
  | bool b => simp [jsonGetField] at hcf
  | num q => simp [jsonGetField] at hcf
  | str s => simp [jsonGetField] at hcf
  | arr elems => simp [jsonGetField] at hcf
  | obj fields =>
    simp [outputTextOf, hcf, mapTexts_of_no_null items hno, List.map_map]
    rfl

theorem outputTextOf_opaque (response : Json)
    (hresp : response ≠ Json.null)
    (hcf : ∀ items, jsonGetField response "content" ≠ some (.arr items)) :
    outputTextOf response = .ok (Json.stringify response) := by
  cases response with
  | null => exact absurd rfl hresp
  | bool b => simp [outputTextOf]
  | num q => simp [outputTextOf]
  | str s => simp [outputTextOf]
  | arr elems => simp [outputTextOf]
  | obj fields =>
    cases hc : List.lookup "content" fields with
    | none => simp [outputTextOf, hc]
    | some j =>
      cases j with
      | arr elems => exact absurd (show jsonGetField (.obj fields) "content" = some (.arr elems) from hc) (hcf elems)
      | null => simp [outputTextOf, hc]
      | bool b => simp [outputTextOf, hc]
      | num q => simp [outputTextOf, hc]
      | str s => simp [outputTextOf, hc]
      | obj fs => simp [outputTextOf, hc]

/-! ## C3 -/

/-- C3 counterexample: the remote call succeeds, resolving with JSON
`null` — an "arbitrary JSON-serializable value", which the claim says is
serialized with `exit_code = 0`.  Instead, line 92's access
`response.content` throws a TypeError, line 96 catches it, and the record
carries `exit_code = 1` with an `MCP error: ` message. -/
theorem C3_success_counterexample :
    envNullResp.callTool client0 "echo"
      (callArgsOf (List.lookup "args" echoFields) (.obj (restFields echoFields))) = .ok Json.null ∧
    (handleMcpFunctionCall envNullResp servers0 [] "srv" (some rawEcho) "c1").result =
      .ok [formatOutput "c1" "MCP error: Cannot read properties of null (reading content)" 1
        (getDuration 123)] ∧
    formatOutput "c1" "MCP error: Cannot read properties of null (reading content)" 1 (getDuration 123) ≠
      formatOutput "c1" (Json.stringify Json.null) 0 (getDuration 123) := by
  refine ⟨rfl, rfl, by decide⟩

/-- C3 (amended): when the remote call succeeds with a non-`null` response
which, if it carries an array `content`, has no `null` element, the router
returns one record with `exit_code = 0` whose embedded output is the
`content` elements' `text` attributes joined by newlines when `content` is
an array, and the JSON serialization of the whole response otherwise.
(A `null` response — or a `null` content element — instead yields an
`exit_code = 1` `MCP error:` record, per the counterexample.) -/
theorem C3_amended_success_output (env : Env) (servers : Registry) (cache : Cache)
    (serverName raw callId : String) (cfg : ServerCfg) (fields : List (String × Json))
    (toolName : String) (client : Client) (cache2 : Cache) (connects : List String)
    (response : Json)
    (hs : List.lookup serverName servers = some cfg)
    (hp : env.parse raw = some (.obj fields))
    (hn : List.lookup "name" fields = some (.str toolName))
    (hre : resolveClient env cfg cache serverName = (.ok client, cache2, connects))
    (hc : env.callTool client toolName
      (callArgsOf (List.lookup "args" fields) (.obj (restFields fields))) = .ok response)
    (hnn : response ≠ Json.null)
    (hel : ∀ items, jsonGetField response "content" = some (.arr items) → Json.null ∉ items) :
    ∃ t, outputTextOf response = .ok t ∧
      (handleMcpFunctionCall env servers cache serverName (some raw) callId).result =
        .ok [formatOutput callId t 0 (getDuration env.elapsedMs)] ∧
      (∀ items, jsonGetField response "content" = some (.arr items) →
        t = String.intercalate "\n" (items.map (fun c => jsJoinElemOpt (jsonGetField c "text")))) ∧
      ((∀ items, jsonGetField response "content" ≠ some (.arr items)) →
        t = Json.stringify response) := by
  by_cases harr : ∃ items, jsonGetField response "content" = some (.arr items)
  · obtain ⟨items, hcf⟩ := harr
    have ht := outputTextOf_content_arr response items hnn hcf (hel items hcf)
    refine ⟨_, ht, ?_, ?_, ?_⟩
    · rw [handle_routed_resolved env servers cache serverName raw callId cfg fields toolName
        client cache2 connects hs hp hn hre]
      simp [toolCallResult, hc, ht]
    · intro items2 hcf2
      rw [hcf] at hcf2
      simp only [Option.some.injEq, Json.arr.injEq] at hcf2
      rw [hcf2]
    · intro hno
      exact absurd hcf (hno items)
  · push_neg at harr
    have ht := outputTextOf_opaque response hnn harr
    refine ⟨_, ht, ?_, fun items hcf => absurd hcf (harr items), fun _ => rfl⟩
    rw [handle_routed_resolved env servers cache serverName raw callId cfg fields toolName
      client cache2 connects hs hp hn hre]
    simp [toolCallResult, hc, ht]

/-- Witness for amended C3: the spec's `{content:[{text:"hi"}]}` example. -/
theorem C3_amended_success_output_witness :
    (handleMcpFunctionCall envOk servers0 [] "srv" (some rawEcho) "c1").result =
      .ok [formatOutput "c1" "hi" 0 (getDuration 123)] := by
  obtain ⟨t, h1, h2, -, -⟩ := C3_amended_success_output envOk servers0 [] "srv" rawEcho "c1"
    ⟨url0⟩ echoFields "echo" client0 [("srv", client0)] ["srv"] respHi
    rfl rfl rfl rfl rfl (by simp [respHi])
    (by
      intro items hcf
      rw [show jsonGetField respHi "content" =
        some (Json.arr [Json.obj [("text", Json.str "hi")]]) from rfl] at hcf
      simp only [Option.some.injEq, Json.arr.injEq] at hcf
      rw [← hcf]
      simp)
  rw [show outputTextOf respHi = Except.ok "hi" from rfl] at h1
  obtain rfl : t = "hi" := (Except.ok.inj h1).symm
  exact h2

/-! ## C7 -/

/-- C7 counterexample: for the payload `{"name":"t","args":null,"foo":"bar"}`
the `args` field IS present (with value `null`), yet line 72's nullish
coalescing `args ?? other` passes the REST object `{foo:"bar"}` — not the
present `args` value — to the tool invocation (observed through a transport
that echoes the received arguments back into the output). -/
theorem C7_args_passing_counterexample :
    List.lookup "args" argsNullFields = some Json.null ∧
    callArgsOf (List.lookup "args" argsNullFields) (.obj (restFields argsNullFields)) =
      .obj [("foo", .str "bar")] ∧
    (handleMcpFunctionCall envEchoArgs servers0 [] "srv" (some rawArgsNull) "c1").result =
      .ok [formatOutput "c1" ("MCP error: " ++ Json.stringify (.obj [("foo", .str "bar")])) 1
        (getDuration 123)] ∧
    formatOutput "c1" ("MCP error: " ++ Json.stringify (.obj [("foo", .str "bar")])) 1 (getDuration 123) ≠
      formatOutput "c1" ("MCP error: " ++ Json.stringify Json.null) 1 (getDuration 123) := by
  refine ⟨rfl, rfl, rfl, by decide⟩

/-- C7 (amended): the arguments passed to the remote tool invocation are
the payload's `args` field when it is present with a non-`null` value, and
otherwise (absent or `null` `args`) the object of the remaining top-level
fields after removing `name` and `args`; in particular, for
`{"name":"t","foo":"bar"}` the invocation receives `{foo:"bar"}`. -/
theorem C7_amended_call_args (env : Env) (servers : Registry) (cache : Cache)
    (serverName raw callId : String) (cfg : ServerCfg) (fields : List (String × Json))
    (toolName : String) (client : Client) (cache2 : Cache) (connects : List String)
    (hs : List.lookup serverName servers = some cfg)
    (hp : env.parse raw = some (.obj fields))
    (hn : List.lookup "name" fields = some (.str toolName))
    (hre : resolveClient env cfg cache serverName = (.ok client, cache2, connects)) :
    (handleMcpFunctionCall env servers cache serverName (some raw) callId).result =
      .ok (toolCallResult env client toolName
        (callArgsOf (List.lookup "args" fields) (.obj (restFields fields))) callId) ∧
    (∀ a, List.lookup "args" fields = some a → a ≠ Json.null →
      callArgsOf (List.lookup "args" fields) (.obj (restFields fields)) = a) ∧
    ((List.lookup "args" fields = none ∨ List.lookup "args" fields = some Json.null) →
      callArgsOf (List.lookup "args" fields) (.obj (restFields fields)) = .obj (restFields fields)) ∧
    callArgsOf (List.lookup "args" flatFields) (.obj (restFields flatFields)) =
      .obj [("foo", .str "bar")] := by
  refine ⟨?_, ?_, ?_, rfl⟩
  · rw [handle_routed_resolved env servers cache serverName raw callId cfg fields toolName
      client cache2 connects hs hp hn hre]
  · intro a ha hnn
    rw [ha]
    cases a with
    | null => exact absurd rfl hnn
    | bool b => rfl
    | num q => rfl
    | str s => rfl
    | arr elems => rfl
    | obj fs => rfl
  · rintro (h | h) <;> simp [h, callArgsOf]

/-- Witness for amended C7: the spec's flat-arguments example
`{"name":"t","foo":"bar"}`. -/
theorem C7_amended_call_args_witness :
    (handleMcpFunctionCall envOk servers0 [] "srv" (some rawFlat) "c1").result =
      .ok (toolCallResult envOk client0 "t"
        (callArgsOf (List.lookup "args" flatFields) (.obj (restFields flatFields))) "c1") ∧
    callArgsOf (List.lookup "args" flatFields) (.obj (restFields flatFields)) =
      .obj [("foo", .str "bar")] := by
  have h := C7_amended_call_args envOk servers0 [] "srv" rawFlat "c1" ⟨url0⟩ flatFields "t"
    client0 [("srv", client0)] ["srv"] rfl rfl rfl rfl
  exact ⟨h.1, h.2.2.2⟩
